import Mathlib

/-!
Verification of the checkbox-table widget logic of this repository.

The repository contains two near-duplicate implementations of a table widget
with a reserved checkbox column and a header-level select-all checkbox:
`qt6_table_checkbox.py` (PyQt6) and `side6_table_checkbox.py` (PySide6).
This development embeds the state-manipulating logic of both variants:

* a row is modelled by the state of the checkbox widget placed in the
  reserved column 0 of that row (`none` when the row has no cell widget
  there, as for rows created through the base-class constructor);
* the header component's mutable state is its `isOn` flag (plus the
  transient `mouseDown` flag for the press/release state machine);
* the current multi-row selection is an input of each operation (a list of
  row indices), since it is owned by the toolkit's selection model and only
  read by this code;
* `QCheckBox.setCheckState` / `setChecked` / `toggle` emit the
  `stateChanged` signal synchronously exactly when the stored state
  changes, with the integer payload 2 (Checked) or 0 (Unchecked); a
  connected signal runs `onCheckboxStateChanged` immediately.

Paint code, geometry, focus handling and the purely delegating +1-column
wrappers that the claims do not mention are not modelled.
-/

/-- State of one row checkbox widget in the Qt6 variant: its checked state and
whether its `stateChanged` signal is still connected to
`onCheckboxStateChanged` (it is connected by `addRow` and disconnected by
`removeRow`). -/
structure CheckBoxW where
  checked : Bool
  connected : Bool
deriving DecidableEq

/-- Mutable state of `QTableWidgetWithCheckBox` (qt6 variant) relevant to the
claims: the per-row checkbox widgets of the reserved column (index = row,
`none` when `cellWidget(row, 0)` is `None`), the header's `isOn` flag, and the
column count of the underlying `QTableWidget`. -/
structure Qt6Table where
  rows : List (Option CheckBoxW)
  headerOn : Bool
  underCols : Nat
deriving DecidableEq

/-- The lookup `cellWidget(row, 0)` (and, for rows, `layout().itemAt(0).widget()`):
`none` when the row index is out of range or the row never got a checkbox
widget. -/
def cellAt {α : Type} (rows : List (Option α)) (j : Nat) : Option α :=
  rows.getD j none

/-- The comparison `checkbox_changed.parent() == self.super.cellWidget(selected_row, 0)`
performed by both variants' `onCheckboxStateChanged`.  `senderParent` is the
row whose container widget holds the changed checkbox, `none` when the
checkbox has no parent yet (the signal fired inside `addRow` before
`setCellWidget`).  Python compares object identity here: the parent widget of
row `p` equals `cellWidget(sr, 0)` exactly when `sr = p` and row `sr` has a
widget, and `None == None` holds when both sides are absent. -/
def parentMatches {α : Type} (rows : List (Option α)) (senderParent : Option Nat)
    (sr : Nat) : Bool :=
  match senderParent, cellAt rows sr with
  | some p, some _ => p == sr
  | none, none => true
  | _, _ => false

namespace Qt6

/-- Predicate applied to each row by `_checkHeader`'s loop body: a row with no
widget is skipped, otherwise its checkbox must not be `Unchecked`. -/
def checkedHere : Option CheckBoxW → Bool
  | some cb => cb.checked
  | none => true

/-- All rows pass `_checkHeader`'s test. -/
def allChecked (rows : List (Option CheckBoxW)) : Bool :=
  rows.all checkedHere

/-- The loop of `_checkHeader` (qt6 variant, lines 452-461): scan rows from 0
upward; at the first row whose checkbox is unchecked the header is set off and
the loop exits; if the loop completes the header is set on.  The returned
boolean is the value `setOn` receives. -/
def checkHeaderScan : List (Option CheckBoxW) → Bool
  | [] => true
  | some cb :: rest => if cb.checked then checkHeaderScan rest else false
  | none :: rest => checkHeaderScan rest

/-- `QTableWidgetWithCheckBox._checkHeader` (qt6 variant). -/
def checkHeader (t : Qt6Table) : Qt6Table :=
  { t with headerOn := checkHeaderScan t.rows }

/-- One call `checkbox.setChecked(b)` on row `r`'s checkbox as performed inside
the propagation loop of `onCheckboxStateChanged`: rows without a widget are
skipped there, and the nested `stateChanged` signal is dropped by the
`_checkboxStateChangedLock` guard, so only the stored state changes. -/
def setCheckedRow (rows : List (Option CheckBoxW)) (r : Nat) (b : Bool) :
    List (Option CheckBoxW) :=
  match cellAt rows r with
  | some cb => rows.set r (some { checked := b, connected := cb.connected })
  | none => rows

/-- The propagation loop of `onCheckboxStateChanged` (qt6 variant, lines
440-445): set every selected row's checkbox to the new state. -/
def propagate (rows : List (Option CheckBoxW)) (sel : List Nat) (b : Bool) :
    List (Option CheckBoxW) :=
  sel.foldl (fun rs sr => setCheckedRow rs sr b) rows

/-- `QTableWidgetWithCheckBox.onCheckboxStateChanged` (qt6 variant, lines
429-450).  `guardHeld` is whether `_checkboxStateChangedLock` is already held
(a nested invocation returns at once); `sel` is the set of currently selected
row indices; `senderParent` identifies the changed checkbox's parent widget;
`state` is the integer signal payload (2 = Checked, 0 = Unchecked).  The
nested signals fired by the propagation loop run with the guard held and are
dropped, so `propagate` only writes the stored states. -/
def onCheckboxStateChanged (guardHeld : Bool) (sel : List Nat)
    (senderParent : Option Nat) (state : Nat) (t : Qt6Table) : Qt6Table :=
  if guardHeld then t
  else
    let rows1 :=
      if sel.any (fun sr => parentMatches t.rows senderParent sr) then
        propagate t.rows sel (state == 2)
      else t.rows
    let t1 : Qt6Table := { t with rows := rows1 }
    if state == 0 then { t1 with headerOn := false } else checkHeader t1

/-- A top-level call `checkbox.setChecked(b)` on row `r`'s checkbox (as done by
`setCheckState` and `checkAll`): when the stored state changes and the signal
is connected, `onCheckboxStateChanged` runs synchronously with the guard free,
the sender's parent being row `r`'s container widget. -/
def setCheckedFire (sel : List Nat) (b : Bool) (r : Nat) (t : Qt6Table) :
    Qt6Table :=
  match cellAt t.rows r with
  | some cb =>
      if cb.checked != b then
        let t1 : Qt6Table :=
          { t with rows := t.rows.set r (some { checked := b, connected := cb.connected }) }
        if cb.connected then
          onCheckboxStateChanged false sel (some r) (if b then 2 else 0) t1
        else t1
      else t
  | none => t

/-- `QTableWidgetWithCheckBox.setCheckState` (qt6 variant, lines 411-418):
when row `r` has a checkbox widget, set it (possibly firing the change
handler) and then recompute the header. -/
def setCheckState (sel : List Nat) (r : Nat) (b : Bool) (t : Qt6Table) :
    Qt6Table :=
  match cellAt t.rows r with
  | some _ => checkHeader (setCheckedFire sel b r t)
  | none => t

/-- `QTableWidgetWithCheckBox.checkAll` (qt6 variant, lines 420-427): iterate
over `range(rowCount())` setting every row checkbox, each `setChecked` firing
the change handler when the state actually changes. -/
def checkAll (sel : List Nat) (b : Bool) (t : Qt6Table) : Qt6Table :=
  (List.range t.rows.length).foldl (fun t2 r => setCheckedFire sel b r t2) t

/-- A user toggle of row `r`'s checkbox (`checkbox.toggle()` in
`mouseReleaseEvent` / `keyPressEvent`): flips the stored state and fires the
change handler. -/
def toggleRow (sel : List Nat) (r : Nat) (t : Qt6Table) : Qt6Table :=
  match cellAt t.rows r with
  | some cb => setCheckedFire sel (!cb.checked) r t
  | none => t

/-- `QTableWidgetWithCheckBox.addRow` (qt6 variant, lines 375-400): insert a
row at `pos` (default append), create a connected checkbox preset to `state`
(the `setCheckState(Checked)` call fires the change handler before the widget
is placed, so the sender has no parent there), place the widget, then
recompute the header. -/
def addRow (sel : List Nat) (state : Bool) (pos : Option Nat) (t : Qt6Table) :
    Qt6Table :=
  let r := pos.getD t.rows.length
  let t1 : Qt6Table := { t with rows := t.rows.insertIdx r none }
  let t2 := if state then onCheckboxStateChanged false sel none 2 t1 else t1
  let t3 : Qt6Table := { t2 with rows := t2.rows.set r (some { checked := state, connected := true }) }
  checkHeader t3

/-- `QTableWidgetWithCheckBox.removeRow` (qt6 variant, lines 194-201): when
row `r` has a checkbox, disconnect its `stateChanged` signal first, then
delegate the removal of the row to the underlying grid (which destroys the
disconnected checkbox without running the handler). -/
def removeRow (r : Nat) (t : Qt6Table) : Qt6Table :=
  match cellAt t.rows r with
  | some cb =>
      { t with rows := (t.rows.set r (some { checked := cb.checked, connected := false })).eraseIdx r }
  | none => { t with rows := t.rows.eraseIdx r }

/-- The constructor `QTableWidgetWithCheckBox(0, c)` as used by the demo
windows of both files: no initial rows, `c` caller-visible columns, so the
underlying grid gets `c + 1` columns; the fresh header has `isOn = False`. -/
def new (c : Nat) : Qt6Table :=
  { rows := [], headerOn := false, underCols := c + 1 }

/-- `QTableWidgetWithCheckBox.columnCount` (qt6 variant, lines 136-137). -/
def columnCount (t : Qt6Table) : Int :=
  (t.underCols : Int) - 1

/-- `QTableWidgetWithCheckBox.setColumnCount` (qt6 variant, lines 226-227). -/
def setColumnCount (n : Nat) (t : Qt6Table) : Qt6Table :=
  { t with underCols := n + 1 }

end Qt6

/-- The public operations named by the header/row synchronization claims, each
taking the current selection as input. -/
inductive Qt6Op where
  | opAddRow (sel : List Nat) (state : Bool) (pos : Option Nat)
  | opSetCheckState (sel : List Nat) (r : Nat) (b : Bool)
  | opCheckAll (sel : List Nat) (b : Bool)
  | opToggleRow (sel : List Nat) (r : Nat)

namespace Qt6

/-- Apply one public operation. -/
def applyOp (t : Qt6Table) : Qt6Op → Qt6Table
  | Qt6Op.opAddRow sel st pos => addRow sel st pos t
  | Qt6Op.opSetCheckState sel r b => setCheckState sel r b t
  | Qt6Op.opCheckAll sel b => checkAll sel b t
  | Qt6Op.opToggleRow sel r => toggleRow sel r t

/-- Run a sequence of public operations. -/
def run (ops : List Qt6Op) (t : Qt6Table) : Qt6Table :=
  ops.foldl applyOp t

end Qt6

/-- The header aggregate invariant claimed by the specification: for a
non-empty table the header is on exactly when every row checkbox passes the
all-checked test. -/
def headerInv (t : Qt6Table) : Prop :=
  t.rows ≠ [] → (t.headerOn = true ↔ Qt6.allChecked t.rows = true)

/-- Every checkbox present in the table still has its change signal connected
(true in all states reachable through the public operations). -/
def rowsWired (rows : List (Option CheckBoxW)) : Prop :=
  ∀ cb : CheckBoxW, some cb ∈ rows → cb.connected = true

/-- Row `r` holds an unchecked checkbox. -/
def rowFalse (rows : List (Option CheckBoxW)) (r : Nat) : Prop :=
  ∃ cb : CheckBoxW, cellAt rows r = some cb ∧ cb.checked = false

/-- The joint reachability invariant of the qt6 table. -/
def tableInv (t : Qt6Table) : Prop :=
  rowsWired t.rows ∧ headerInv t

/-- Row `j` passes the all-checked test. -/
def rowOk (rows : List (Option CheckBoxW)) (j : Nat) : Bool :=
  Qt6.checkedHere (cellAt rows j)

/-- `QAbstractItemView.SelectionBehavior` values. -/
inductive SelBehavior where
  | selectItems
  | selectRows
  | selectColumns
deriving DecidableEq

/-- Mutable state of `QTableWidgetWithCheckBox` (side6 variant) relevant to
the claims: per-row checkbox states of the reserved column (`none` when the
row has no checkbox widget), the header's `isOn` flag, and the view's
selection behavior (fixed to `SelectRows` by the constructor). -/
structure Side6Table where
  rows : List (Option Bool)
  headerOn : Bool
  behavior : SelBehavior
deriving DecidableEq

namespace Side6

/-- The loop of `checkHeader` (side6 variant, lines 152-160) with the header's
current `isOn` value threaded through: the scan exits at the first unchecked
row WITHOUT calling `setOn`, so the header keeps its previous value; only when
the loop completes is the header set on.  The returned boolean is the header
value after the call. -/
def checkHeaderScan : List (Option Bool) → Bool → Bool
  | [], _ => true
  | some b :: rest, h => if b then checkHeaderScan rest h else h
  | none :: rest, h => checkHeaderScan rest h

/-- `QTableWidgetWithCheckBox.checkHeader` (side6 variant). -/
def checkHeader (t : Side6Table) : Side6Table :=
  { t with headerOn := checkHeaderScan t.rows t.headerOn }

/-- One iteration of the propagation loop of `onCheckboxStateChanged` (side6
variant, lines 140-145) on the selected row `sr`: rows without a widget are
skipped; `setChecked` stores the new value and, because the stored value
changed and nothing guards re-entry, synchronously runs the nested handler
invocation `nested`.  The second component counts how many handler bodies ran.
-/
def propStep (nested : Nat → Side6Table → Side6Table × Nat) (st : Nat)
    (acc : Side6Table × Nat) (sr : Nat) : Side6Table × Nat :=
  match cellAt acc.1.rows sr with
  | some old =>
      if old != (st == 2) then
        let q := nested sr { acc.1 with rows := acc.1.rows.set sr (some (st == 2)) }
        (q.1, acc.2 + q.2)
      else acc
  | none => acc

/-- `QTableWidgetWithCheckBox.onCheckboxStateChanged` (side6 variant, lines
135-150).  The `threading.RLock` held by the surrounding `with self.lock:` is
re-entrant on the single GUI thread, so a nested invocation triggered by the
propagation loop runs the FULL body recursively (there is no drop guard in
this variant).  The recursion is bounded by a fuel argument: each nested
invocation only ever writes the same value `st == 2` into selected rows, so
at most one nested invocation per selected row that initially differed can
fire, and fuel `sel.length + 1` (used by the wrappers below) never runs out.
The second component of the result counts executed handler bodies. -/
def handlerFuel : Nat → List Nat → Option Nat → Nat → Side6Table → Side6Table × Nat
  | 0, _, _, _, t => (t, 0)
  | f + 1, sel, sp, st, t =>
      let p :=
        if sel.any (fun sr => parentMatches t.rows sp sr) then
          sel.foldl
            (propStep (fun sr t2 => handlerFuel f sel (some sr) (if st == 2 then 2 else 0) t2) st)
            (t, 0)
        else (t, 0)
      (if st == 0 then { p.1 with headerOn := false } else checkHeader p.1, p.2 + 1)

/-- The propagation phase of one `handlerFuel (f + 1)` invocation: the fold
over the selected rows when the sender matches a selected row's widget, the
identity otherwise.  (Definitionally the `let p := …` of `handlerFuel`.) -/
def propPhase (f : Nat) (sel : List Nat) (sp : Option Nat) (st : Nat)
    (t : Side6Table) : Side6Table × Nat :=
  if sel.any (fun sr => parentMatches t.rows sp sr) then
    sel.foldl
      (propStep (fun sr t2 => handlerFuel f sel (some sr) (if st == 2 then 2 else 0) t2) st)
      (t, 0)
  else (t, 0)

/-- The side6 handler together with the count of executed handler bodies. -/
def onCheckboxStateChangedCount (sel : List Nat) (sp : Option Nat) (st : Nat)
    (t : Side6Table) : Side6Table × Nat :=
  handlerFuel (sel.length + 1) sel sp st t

/-- The side6 handler's effect on the table state. -/
def onCheckboxStateChanged (sel : List Nat) (sp : Option Nat) (st : Nat)
    (t : Side6Table) : Side6Table :=
  (onCheckboxStateChangedCount sel sp st t).1

/-- `QTableWidgetWithCheckBox.addRow` (side6 variant, lines 94-116): append a
row, create a connected checkbox preset to `state` (the
`setCheckState(Checked)` call fires the change handler before the widget is
placed), place the widget.  Unlike the qt6 variant, the header is NOT
recomputed at the end. -/
def addRow (sel : List Nat) (state : Bool) (t : Side6Table) : Side6Table :=
  let r := t.rows.length
  let t1 : Side6Table := { t with rows := t.rows ++ [none] }
  let t2 := if state then onCheckboxStateChanged sel none 2 t1 else t1
  { t2 with rows := t2.rows.set r (some state) }

/-- The side6 constructor state for `QTableWidgetWithCheckBox(0, c)`: no rows,
header off, and `setSelectionBehavior(SelectRows)` applied on the superclass.
-/
def new : Side6Table :=
  { rows := [], headerOn := false, behavior := SelBehavior.selectRows }

/-- `QTableWidgetWithCheckBox.setSelectionBehavior` (side6 variant, lines
176-177): `def setSelectionBehavior(self, *_): pass` — accepts anything and
does nothing. -/
def setSelectionBehavior {α : Type} (_args : α) (t : Side6Table) : Side6Table :=
  t

end Side6

/-- Some row's checkbox is unchecked (side6 rows). -/
def side6HasUnchecked (rows : List (Option Bool)) : Bool :=
  rows.any (fun c => c == some false)

/-- Mutable state of the header checkbox component (`_CheckBoxHeader` /
`CheckBoxHeader`): the `isOn` flag and the transient `mouseDown` flag. -/
structure HeaderSM where
  isOn : Bool
  mouseDown : Bool
deriving DecidableEq

namespace Qt6

/-- `_CheckBoxHeader.mousePressEvent` (qt6 variant, lines 81-88): a left press
sets `mouseDown` whatever section it lands on; the section only decides
whether default press handling is suppressed.  `sec` is
`logicalIndexAt(position)`. -/
def headerMousePress (left : Bool) (sec : Int) (h : HeaderSM) : HeaderSM :=
  if left then
    let h1 : HeaderSM := { h with mouseDown := true }
    if sec == 0 then h1 else h1
  else h

/-- `_CheckBoxHeader.mouseReleaseEvent` (qt6 variant, lines 71-79): a left
release clears `mouseDown`; when `logicalIndexAt` of the RELEASE position is
section 0, `isOn` flips and `select_all_clicked` is emitted with the new
value (second component). -/
def headerMouseRelease (left : Bool) (sec : Int) (h : HeaderSM) :
    HeaderSM × Option Bool :=
  if left then
    let h1 : HeaderSM := { h with mouseDown := false }
    if sec == 0 then ({ h1 with isOn := !h1.isOn }, some (!h1.isOn))
    else (h1, none)
  else (h, none)

end Qt6

namespace Side6

/-- `CheckBoxHeader.mousePressEvent` (side6 variant, lines 65-71). -/
def headerMousePress (left : Bool) (sec : Int) (h : HeaderSM) : HeaderSM :=
  if left then
    let h1 : HeaderSM := { h with mouseDown := true }
    if sec == 0 then h1 else h1
  else h

/-- `CheckBoxHeader.mouseReleaseEvent` (side6 variant, lines 55-63): same
toggle condition as the qt6 variant — only the release position is examined.
-/
def headerMouseRelease (left : Bool) (sec : Int) (h : HeaderSM) :
    HeaderSM × Option Bool :=
  if left then
    let h1 : HeaderSM := { h with mouseDown := false }
    if sec == 0 then ({ h1 with isOn := !h1.isOn }, some (!h1.isOn))
    else (h1, none)
  else (h, none)

end Side6

/-- Where a table mouse press ends up when it does not fault. -/
inductive PressOutcome where
  | forwardedToSuper
  | ignored
deriving DecidableEq

namespace Qt6

/-- The `_press_index` attribute is never initialised in `__init__`; it first
comes into existence on the first left-button press. -/
def initPressIndex : Option Int := none

/-- `QTableWidgetWithCheckBox.mousePressEvent` (qt6 variant, lines 463-469).
`col` is `indexAt(position).column()`.  A left press stores the index; then
`self._press_index.column()` is read unconditionally — an `AttributeError`
when the attribute was never assigned.  On success the result records whether
the event was forwarded to the superclass or ignored, and the new
`_press_index` column. -/
def mousePressEvent (left : Bool) (col : Int) (pressIndexCol : Option Int) :
    Except String (PressOutcome × Option Int) :=
  let p1 := if left then some col else pressIndexCol
  match p1 with
  | none => Except.error "AttributeError"
  | some c =>
      Except.ok
        ((if c != 0 then PressOutcome.forwardedToSuper else PressOutcome.ignored), some c)

end Qt6

/-- A warning raised through `warnings.warn`. -/
inductive Warn where
  | notImplemented (message : String)
deriving DecidableEq

namespace Qt6

/-- `QTableWidgetWithCheckBox.indexFromItem` (qt6 variant, lines 145-147):
warn, then delegate to the superclass with the argument unchanged. -/
def indexFromItem {Item Index : Type} (superFn : Item → Index) (item : Item) :
    List Warn × Index :=
  ([Warn.notImplemented "indexFromItem() is not overridden"], superFn item)

/-- `QTableWidgetWithCheckBox.itemFromIndex` (qt6 variant, lines 184-186). -/
def itemFromIndex {Index Item : Type} (superFn : Index → Item) (index : Index) :
    List Warn × Item :=
  ([Warn.notImplemented "itemFromIndex() is not overridden"], superFn index)

/-- `QTableWidgetWithCheckBox.isIndexHidden` (qt6 variant, lines 320-322). -/
def isIndexHidden {Index : Type} (superFn : Index → Bool) (index : Index) :
    List Warn × Bool :=
  ([Warn.notImplemented "isIndexHidden() is not overridden"], superFn index)

/-- `QTableWidgetWithCheckBox.scrollTo` (qt6 variant, lines 330-336). -/
def scrollTo {Index Hint Eff : Type} (superFn : Index → Hint → Eff)
    (index : Index) (hint : Hint) : List Warn × Eff :=
  ([Warn.notImplemented "scrollTo() is not overridden"], superFn index hint)

/-- `QTableWidgetWithCheckBox.selectedIndexes` (qt6 variant, lines 341-343). -/
def selectedIndexes {Index : Type} (superFn : Unit → List Index) :
    List Warn × List Index :=
  ([Warn.notImplemented "selectedIndexes() is not overridden"], superFn ())

/-- `QTableWidgetWithCheckBox.sizeHintForColumn` (qt6 variant, lines 357-359):
note the column is passed through WITHOUT the +1 offset. -/
def sizeHintForColumn (superFn : Int → Int) (column : Int) : List Warn × Int :=
  ([Warn.notImplemented "sizeHintForColumn() is not overridden"], superFn column)

/-- `QTableWidgetWithCheckBox.indexAt` (qt6 variant, lines 366-368). -/
def indexAt {Pt Index : Type} (superFn : Pt → Index) (point : Pt) :
    List Warn × Index :=
  ([Warn.notImplemented "indexAt() is not overridden"], superFn point)

end Qt6

/-- Arguments of one `addRow` call (qt6 variant). -/
structure AddRowCall where
  sel : List Nat
  state : Bool
  pos : Option Nat

/-- Run a sequence of `addRow` calls (qt6 variant). -/
def runAddRows (calls : List AddRowCall) (t : Qt6Table) : Qt6Table :=
  calls.foldl (fun t2 c => Qt6.addRow c.sel c.state c.pos t2) t

/-! Lemmas about the `cellWidget` lookup. -/

section CellAtLemmas

variable {α : Type}

theorem cellAt_eq_getElem? (rows : List (Option α)) (j : Nat) :
    cellAt rows j = (rows[j]?).getD none := by
  unfold cellAt List.getD
  rw [List.get?_eq_getElem?]

theorem cellAt_lt_length {rows : List (Option α)} {j : Nat} {a : α}
    (h : cellAt rows j = some a) : j < rows.length := by
  by_contra hge
  rw [cellAt_eq_getElem?, List.getElem?_eq_none (Nat.le_of_not_lt hge)] at h
  exact Option.noConfusion h

theorem cellAt_of_ge {rows : List (Option α)} {j : Nat}
    (h : rows.length ≤ j) : cellAt rows j = none := by
  rw [cellAt_eq_getElem?, List.getElem?_eq_none h]
  rfl

theorem cellAt_set_self {rows : List (Option α)} {j : Nat} (v : Option α)
    (h : j < rows.length) : cellAt (rows.set j v) j = v := by
  rw [cellAt_eq_getElem?, List.getElem?_set_self h]
  rfl

theorem cellAt_set_ne {rows : List (Option α)} {i j : Nat} (v : Option α)
    (h : i ≠ j) : cellAt (rows.set i v) j = cellAt rows j := by
  rw [cellAt_eq_getElem?, cellAt_eq_getElem?, List.getElem?_set_ne h]

theorem cellAt_mem {rows : List (Option α)} {j : Nat} {a : α}
    (h : cellAt rows j = some a) : some a ∈ rows := by
  have hlt : j < rows.length := cellAt_lt_length h
  rw [cellAt_eq_getElem?, List.getElem?_eq_getElem hlt, Option.getD_some] at h
  rw [← h]
  exact List.getElem_mem hlt

end CellAtLemmas

/-! Basic rewriting lemmas for the qt6 definitions. -/

theorem propagate_nil (rows : List (Option CheckBoxW)) (b : Bool) :
    Qt6.propagate rows [] b = rows := rfl

theorem propagate_cons (rows : List (Option CheckBoxW)) (sr : Nat)
    (rest : List Nat) (b : Bool) :
    Qt6.propagate rows (sr :: rest) b =
      Qt6.propagate (Qt6.setCheckedRow rows sr b) rest b := rfl

theorem checkHeader_rows (t : Qt6Table) : (Qt6.checkHeader t).rows = t.rows := rfl

theorem handler_guard_eq (sel : List Nat) (sp : Option Nat) (st : Nat)
    (t : Qt6Table) : Qt6.onCheckboxStateChanged true sel sp st t = t := rfl

theorem handler_false_eq (sel : List Nat) (sp : Option Nat) (st : Nat)
    (t : Qt6Table) :
    Qt6.onCheckboxStateChanged false sel sp st t =
      (if st == 0 then
        { t with
            rows :=
              if sel.any (fun sr => parentMatches t.rows sp sr) then
                Qt6.propagate t.rows sel (st == 2)
              else t.rows,
            headerOn := false }
      else
        Qt6.checkHeader
          { t with
              rows :=
                if sel.any (fun sr => parentMatches t.rows sp sr) then
                  Qt6.propagate t.rows sel (st == 2)
                else t.rows }) := rfl

theorem checkHeaderScan_eq_allChecked (rows : List (Option CheckBoxW)) :
    Qt6.checkHeaderScan rows = Qt6.allChecked rows := by
  induction rows with
  | nil => rfl
  | cons c rest ih =>
      cases c with
      | none =>
          show Qt6.checkHeaderScan rest = Qt6.allChecked (none :: rest)
          rw [ih, Qt6.allChecked, Qt6.allChecked, List.all_cons]
          rfl
      | some cb =>
          show (if cb.checked then Qt6.checkHeaderScan rest else false) =
            Qt6.allChecked (some cb :: rest)
          rw [Qt6.allChecked, List.all_cons,
            show Qt6.checkedHere (some cb) = cb.checked from rfl]
          cases hch : cb.checked with
          | true => rw [if_pos rfl, ih, Bool.true_and]; rfl
          | false => rw [if_neg Bool.false_ne_true, Bool.false_and]

theorem setCheckedRow_of_none {rows : List (Option CheckBoxW)} {r : Nat}
    (h : cellAt rows r = none) (b : Bool) : Qt6.setCheckedRow rows r b = rows := by
  unfold Qt6.setCheckedRow
  rw [h]

theorem setCheckedRow_of_some {rows : List (Option CheckBoxW)} {r : Nat}
    {cb : CheckBoxW} (h : cellAt rows r = some cb) (b : Bool) :
    Qt6.setCheckedRow rows r b =
      rows.set r (some { checked := b, connected := cb.connected }) := by
  unfold Qt6.setCheckedRow
  rw [h]

theorem length_setCheckedRow (rows : List (Option CheckBoxW)) (r : Nat)
    (b : Bool) : (Qt6.setCheckedRow rows r b).length = rows.length := by
  unfold Qt6.setCheckedRow
  split
  · exact List.length_set rows r _
  · rfl

theorem length_propagate (sel : List Nat) (rows : List (Option CheckBoxW))
    (b : Bool) : (Qt6.propagate rows sel b).length = rows.length := by
  induction sel generalizing rows with
  | nil => rfl
  | cons sr rest ih =>
      rw [propagate_cons, ih, length_setCheckedRow]

theorem cellAt_setCheckedRow_ne {rows : List (Option CheckBoxW)} {r j : Nat}
    (h : r ≠ j) (b : Bool) :
    cellAt (Qt6.setCheckedRow rows r b) j = cellAt rows j := by
  unfold Qt6.setCheckedRow
  split
  · exact cellAt_set_ne _ h
  · rfl

theorem cellAt_setCheckedRow_self {rows : List (Option CheckBoxW)} {r : Nat}
    {cb : CheckBoxW} (h : cellAt rows r = some cb) (b : Bool) :
    cellAt (Qt6.setCheckedRow rows r b) r =
      some { checked := b, connected := cb.connected } := by
  rw [setCheckedRow_of_some h b]
  exact cellAt_set_self _ (cellAt_lt_length h)

theorem rowsWired_setCheckedRow {rows : List (Option CheckBoxW)}
    (hw : rowsWired rows) (r : Nat) (b : Bool) :
    rowsWired (Qt6.setCheckedRow rows r b) := by
  unfold Qt6.setCheckedRow
  split
  · rename_i cb hcb
    intro cb2 hmem
    rcases List.mem_or_eq_of_mem_set hmem with h | h
    · exact hw cb2 h
    · cases Option.some.inj h
      exact hw cb (cellAt_mem hcb)
  · exact hw

theorem rowsWired_propagate {rows : List (Option CheckBoxW)}
    (hw : rowsWired rows) (sel : List Nat) (b : Bool) :
    rowsWired (Qt6.propagate rows sel b) := by
  induction sel generalizing rows with
  | nil => exact hw
  | cons sr rest ih =>
      rw [propagate_cons]
      exact ih (rowsWired_setCheckedRow hw sr b)

theorem headerInv_checkHeader (t : Qt6Table) : headerInv (Qt6.checkHeader t) := by
  intro _
  show Qt6.checkHeaderScan t.rows = true ↔ Qt6.allChecked t.rows = true
  rw [checkHeaderScan_eq_allChecked]

theorem allChecked_eq_false {rows : List (Option CheckBoxW)} {r : Nat}
    (hf : rowFalse rows r) : Qt6.allChecked rows = false := by
  obtain ⟨cb, hc, hch⟩ := hf
  cases hq : Qt6.allChecked rows with
  | false => rfl
  | true =>
      have hmem := List.all_eq_true.mp hq (some cb) (cellAt_mem hc)
      rw [show Qt6.checkedHere (some cb) = cb.checked from rfl, hch] at hmem
      exact Bool.noConfusion hmem

theorem rowFalse_setCheckedRow_false {rows : List (Option CheckBoxW)} {r : Nat}
    (hf : rowFalse rows r) (i : Nat) :
    rowFalse (Qt6.setCheckedRow rows i false) r := by
  obtain ⟨cb, hc, hch⟩ := hf
  by_cases hir : i = r
  · subst hir
    cases hci : cellAt rows i with
    | none => rw [setCheckedRow_of_none hci]; exact ⟨cb, hc, hch⟩
    | some cb2 =>
        exact ⟨{ checked := false, connected := cb2.connected },
          cellAt_setCheckedRow_self hci false, rfl⟩
  · exact ⟨cb, by rw [cellAt_setCheckedRow_ne hir]; exact hc, hch⟩

theorem rowFalse_propagate_false {rows : List (Option CheckBoxW)} {r : Nat}
    (hf : rowFalse rows r) (sel : List Nat) :
    rowFalse (Qt6.propagate rows sel false) r := by
  induction sel generalizing rows with
  | nil => exact hf
  | cons sr rest ih =>
      rw [propagate_cons]
      exact ih (rowFalse_setCheckedRow_false hf sr)

theorem headerInv_handler {st : Nat} (sel : List Nat) (sp : Option Nat)
    (t : Qt6Table) (h0 : st = 0 → ∃ r, rowFalse t.rows r) :
    headerInv (Qt6.onCheckboxStateChanged false sel sp st t) := by
  rw [handler_false_eq]
  split
  case isFalse => exact headerInv_checkHeader _
  case isTrue hst =>
      obtain ⟨r, hf⟩ := h0 (eq_of_beq hst)
      intro _
      have hfalse :
          Qt6.allChecked
            (if sel.any (fun sr => parentMatches t.rows sp sr) then
              Qt6.propagate t.rows sel (st == 2)
            else t.rows) = false := by
        have h2 : (st == 2) = false := by
          rw [eq_of_beq hst]; rfl
        rw [h2]
        split
        · exact allChecked_eq_false (rowFalse_propagate_false hf sel)
        · exact allChecked_eq_false hf
      show false = true ↔ _
      rw [hfalse]

theorem handler_rows_eq (sel : List Nat) (sp : Option Nat) (st : Nat)
    (t : Qt6Table) :
    (Qt6.onCheckboxStateChanged false sel sp st t).rows =
      (if sel.any (fun sr => parentMatches t.rows sp sr) then
        Qt6.propagate t.rows sel (st == 2)
      else t.rows) := by
  rw [handler_false_eq]
  split
  · rfl
  · rfl

theorem rowsWired_handler {t : Qt6Table} (hw : rowsWired t.rows) (g : Bool)
    (sel : List Nat) (sp : Option Nat) (st : Nat) :
    rowsWired (Qt6.onCheckboxStateChanged g sel sp st t).rows := by
  cases g
  · rw [handler_rows_eq]
    split
    · exact rowsWired_propagate hw sel _
    · exact hw
  · exact hw

theorem rowsWired_set_some {rows : List (Option CheckBoxW)} (hw : rowsWired rows)
    (r : Nat) (b : Bool) :
    rowsWired (rows.set r (some { checked := b, connected := true })) := by
  intro cb hmem
  rcases List.mem_or_eq_of_mem_set hmem with h | h
  · exact hw cb h
  · cases Option.some.inj h
    rfl

theorem rowsWired_fire {t : Qt6Table} (hw : rowsWired t.rows) (sel : List Nat)
    (b : Bool) (r : Nat) : rowsWired (Qt6.setCheckedFire sel b r t).rows := by
  unfold Qt6.setCheckedFire
  split
  · rename_i cb hcb
    split
    · have hw1 :
          rowsWired (t.rows.set r (some { checked := b, connected := cb.connected })) := by
        intro cb2 hmem
        rcases List.mem_or_eq_of_mem_set hmem with h | h
        · exact hw cb2 h
        · cases Option.some.inj h
          exact hw cb (cellAt_mem hcb)
      split
      · exact rowsWired_handler hw1 false sel (some r) _
      · exact hw1
    · exact hw
  · exact hw

theorem rowsWired_setCheckState {t : Qt6Table} (hw : rowsWired t.rows)
    (sel : List Nat) (r : Nat) (b : Bool) :
    rowsWired (Qt6.setCheckState sel r b t).rows := by
  unfold Qt6.setCheckState
  split
  · exact rowsWired_fire hw sel b r
  · exact hw

theorem rowsWired_foldFire (l : List Nat) (sel : List Nat) (b : Bool) :
    ∀ t : Qt6Table, rowsWired t.rows →
      rowsWired ((l.foldl (fun t2 r => Qt6.setCheckedFire sel b r t2) t)).rows := by
  induction l with
  | nil => exact fun _ hw => hw
  | cons r rest ih => exact fun t hw => ih _ (rowsWired_fire hw sel b r)

theorem rowsWired_checkAll {t : Qt6Table} (hw : rowsWired t.rows)
    (sel : List Nat) (b : Bool) : rowsWired (Qt6.checkAll sel b t).rows :=
  rowsWired_foldFire _ sel b t hw

theorem rowsWired_toggleRow {t : Qt6Table} (hw : rowsWired t.rows)
    (sel : List Nat) (r : Nat) : rowsWired (Qt6.toggleRow sel r t).rows := by
  unfold Qt6.toggleRow
  split
  · exact rowsWired_fire hw sel _ r
  · exact hw

theorem rowsWired_insert {rows : List (Option CheckBoxW)} (hw : rowsWired rows)
    (p : Nat) : rowsWired (rows.insertIdx p none) := by
  intro cb hmem
  by_cases hp : p ≤ rows.length
  · rcases (List.mem_insertIdx hp).mp hmem with h | h
    · exact Option.noConfusion h
    · exact hw cb h
  · rw [List.insertIdx_of_length_lt rows none p (Nat.lt_of_not_le hp)] at hmem
    exact hw cb hmem

theorem rowsWired_addRow {t : Qt6Table} (hw : rowsWired t.rows)
    (sel : List Nat) (state : Bool) (pos : Option Nat) :
    rowsWired (Qt6.addRow sel state pos t).rows := by
  unfold Qt6.addRow
  have h1 := rowsWired_insert hw (pos.getD t.rows.length)
  cases state
  · exact rowsWired_set_some h1 _ _
  · exact rowsWired_set_some (rowsWired_handler h1 false sel none 2) _ _

theorem headerInv_setCheckState (t : Qt6Table) (hi : headerInv t)
    (sel : List Nat) (r : Nat) (b : Bool) :
    headerInv (Qt6.setCheckState sel r b t) := by
  unfold Qt6.setCheckState
  split
  · exact headerInv_checkHeader _
  · exact hi

theorem headerInv_fire {t : Qt6Table} (hw : rowsWired t.rows) (hi : headerInv t)
    (sel : List Nat) (b : Bool) (r : Nat) :
    headerInv (Qt6.setCheckedFire sel b r t) := by
  unfold Qt6.setCheckedFire
  split
  · rename_i cb hcb
    split
    · have hconn : cb.connected = true := hw cb (cellAt_mem hcb)
      rw [hconn, if_pos rfl]
      apply headerInv_handler
      intro hst0
      have hb : b = false := by
        cases b
        · rfl
        · exact absurd hst0 (by decide)
      subst hb
      exact ⟨r, _, cellAt_set_self _ (cellAt_lt_length hcb), rfl⟩
    · exact hi
  · exact hi

theorem headerInvWired_foldFire (l : List Nat) (sel : List Nat) (b : Bool) :
    ∀ t : Qt6Table, rowsWired t.rows → headerInv t →
      headerInv (l.foldl (fun t2 r => Qt6.setCheckedFire sel b r t2) t) := by
  induction l with
  | nil => exact fun _ _ hi => hi
  | cons r rest ih =>
      exact fun t hw hi =>
        ih _ (rowsWired_fire hw sel b r) (headerInv_fire hw hi sel b r)

theorem headerInv_checkAll {t : Qt6Table} (hw : rowsWired t.rows)
    (hi : headerInv t) (sel : List Nat) (b : Bool) :
    headerInv (Qt6.checkAll sel b t) :=
  headerInvWired_foldFire _ sel b t hw hi

theorem headerInv_toggleRow {t : Qt6Table} (hw : rowsWired t.rows)
    (hi : headerInv t) (sel : List Nat) (r : Nat) :
    headerInv (Qt6.toggleRow sel r t) := by
  unfold Qt6.toggleRow
  split
  · exact headerInv_fire hw hi sel _ r
  · exact hi

theorem headerInv_addRow (t : Qt6Table) (sel : List Nat) (state : Bool)
    (pos : Option Nat) : headerInv (Qt6.addRow sel state pos t) :=
  headerInv_checkHeader _

theorem tableInv_applyOp {t : Qt6Table} (h : tableInv t) (op : Qt6Op) :
    tableInv (Qt6.applyOp t op) := by
  obtain ⟨hw, hi⟩ := h
  cases op with
  | opAddRow sel st pos =>
      exact ⟨rowsWired_addRow hw sel st pos, headerInv_addRow t sel st pos⟩
  | opSetCheckState sel r b =>
      exact ⟨rowsWired_setCheckState hw sel r b, headerInv_setCheckState t hi sel r b⟩
  | opCheckAll sel b =>
      exact ⟨rowsWired_checkAll hw sel b, headerInv_checkAll hw hi sel b⟩
  | opToggleRow sel r =>
      exact ⟨rowsWired_toggleRow hw sel r, headerInv_toggleRow hw hi sel r⟩

theorem tableInv_run (ops : List Qt6Op) :
    ∀ t : Qt6Table, tableInv t → tableInv (Qt6.run ops t) := by
  induction ops with
  | nil => exact fun _ h => h
  | cons op rest ih => exact fun t h => ih _ (tableInv_applyOp h op)

theorem tableInv_new (c : Nat) : tableInv (Qt6.new c) :=
  ⟨fun _ hmem => absurd hmem (List.not_mem_nil _),
   fun hne => absurd rfl hne⟩

/-! Monotonicity lemmas: `checkAll(True)` leaves every row checked. -/

theorem rowOk_setCheckedRow_true {rows : List (Option CheckBoxW)} {j : Nat}
    (h : rowOk rows j = true) (i : Nat) :
    rowOk (Qt6.setCheckedRow rows i true) j = true := by
  unfold rowOk at *
  by_cases hij : i = j
  · subst hij
    cases hci : cellAt rows i with
    | none => rw [setCheckedRow_of_none hci]; exact h
    | some cb => rw [cellAt_setCheckedRow_self hci true]; rfl
  · rw [cellAt_setCheckedRow_ne hij]; exact h

theorem rowOk_propagate_true {rows : List (Option CheckBoxW)} {j : Nat}
    (h : rowOk rows j = true) (sel : List Nat) :
    rowOk (Qt6.propagate rows sel true) j = true := by
  induction sel generalizing rows with
  | nil => exact h
  | cons sr rest ih =>
      rw [propagate_cons]
      exact ih (rowOk_setCheckedRow_true h sr)

theorem rowOk_handler_true {t : Qt6Table} {j : Nat} (h : rowOk t.rows j = true)
    (sel : List Nat) (sp : Option Nat) :
    rowOk (Qt6.onCheckboxStateChanged false sel sp 2 t).rows j = true := by
  rw [handler_rows_eq]
  split
  · exact rowOk_propagate_true h sel
  · exact h

theorem rowOk_fire_true {t : Qt6Table} {j : Nat} (h : rowOk t.rows j = true)
    (sel : List Nat) (r : Nat) :
    rowOk (Qt6.setCheckedFire sel true r t).rows j = true := by
  unfold Qt6.setCheckedFire
  split
  · rename_i cb hcb
    split
    · have hset :
          rowOk (t.rows.set r (some { checked := true, connected := cb.connected })) j = true := by
        unfold rowOk at *
        by_cases hrj : r = j
        · subst hrj
          rw [cellAt_set_self _ (cellAt_lt_length hcb)]
          rfl
        · rw [cellAt_set_ne _ hrj]; exact h
      split
      · exact rowOk_handler_true hset sel (some r)
      · exact hset
    · exact h
  · exact h

theorem rowOk_fire_true_self (t : Qt6Table) (sel : List Nat) (r : Nat) :
    rowOk (Qt6.setCheckedFire sel true r t).rows r = true := by
  unfold Qt6.setCheckedFire
  split
  · rename_i cb hcb
    split
    · have hset :
          rowOk (t.rows.set r (some { checked := true, connected := cb.connected })) r = true := by
        unfold rowOk
        rw [cellAt_set_self _ (cellAt_lt_length hcb)]
        rfl
      split
      · exact rowOk_handler_true hset sel (some r)
      · exact hset
    · rename_i hnc
      unfold rowOk
      rw [hcb]
      show cb.checked = true
      cases hc : cb.checked
      · exact absurd (by rw [hc]; rfl) hnc
      · rfl
  · rename_i hcb
    unfold rowOk
    rw [hcb]
    rfl

theorem rowOk_foldFire_mono (l : List Nat) (sel : List Nat) :
    ∀ (t : Qt6Table) (j : Nat), rowOk t.rows j = true →
      rowOk ((l.foldl (fun t2 r => Qt6.setCheckedFire sel true r t2) t)).rows j = true := by
  induction l with
  | nil => exact fun _ _ h => h
  | cons r rest ih => exact fun t j h => ih _ j (rowOk_fire_true h sel r)

theorem rowOk_foldFire_true (l : List Nat) (sel : List Nat) :
    ∀ (t : Qt6Table) (j : Nat), j ∈ l →
      rowOk ((l.foldl (fun t2 r => Qt6.setCheckedFire sel true r t2) t)).rows j = true := by
  induction l with
  | nil => exact fun _ j hj => absurd hj (List.not_mem_nil j)
  | cons r rest ih =>
      intro t j hj
      rcases List.mem_cons.mp hj with h | h
      · subst h
        exact rowOk_foldFire_mono rest sel _ j (rowOk_fire_true_self t sel j)
      · exact ih _ j h

theorem allChecked_of_rowOk {rows : List (Option CheckBoxW)}
    (h : ∀ j, j < rows.length → rowOk rows j = true) :
    Qt6.allChecked rows = true := by
  rw [Qt6.allChecked, List.all_eq_true]
  intro x hx
  obtain ⟨i, hi, hix⟩ := List.getElem_of_mem hx
  have h2 := h i hi
  unfold rowOk at h2
  rw [cellAt_eq_getElem?, List.getElem?_eq_getElem hi, Option.getD_some] at h2
  rw [← hix]
  exact h2

theorem length_handler (sel : List Nat) (sp : Option Nat) (st : Nat)
    (t : Qt6Table) :
    (Qt6.onCheckboxStateChanged false sel sp st t).rows.length = t.rows.length := by
  rw [handler_rows_eq]
  split
  · exact length_propagate _ _ _
  · rfl

theorem length_fire (sel : List Nat) (b : Bool) (r : Nat) (t : Qt6Table) :
    (Qt6.setCheckedFire sel b r t).rows.length = t.rows.length := by
  unfold Qt6.setCheckedFire
  split
  · split
    · split
      · rw [length_handler]
        exact List.length_set t.rows r _
      · exact List.length_set t.rows r _
    · rfl
  · rfl

theorem length_foldFire (l : List Nat) (sel : List Nat) (b : Bool) :
    ∀ t : Qt6Table,
      ((l.foldl (fun t2 r => Qt6.setCheckedFire sel b r t2) t)).rows.length = t.rows.length := by
  induction l with
  | nil => exact fun _ => rfl
  | cons r rest ih => exact fun t => (ih _).trans (length_fire sel b r t)

theorem checkAll_true_headerOn {t : Qt6Table} (hw : rowsWired t.rows)
    (hi : headerInv t) (hne : t.rows ≠ []) (sel : List Nat) :
    (Qt6.checkAll sel true t).headerOn = true := by
  have hinv : headerInv (Qt6.checkAll sel true t) := headerInv_checkAll hw hi sel true
  have hlen : (Qt6.checkAll sel true t).rows.length = t.rows.length :=
    length_foldFire _ sel true t
  have hall : Qt6.allChecked (Qt6.checkAll sel true t).rows = true := by
    apply allChecked_of_rowOk
    intro j hj
    rw [hlen] at hj
    exact rowOk_foldFire_true (List.range t.rows.length) sel t j (List.mem_range.mpr hj)
  have hne2 : (Qt6.checkAll sel true t).rows ≠ [] := by
    intro hempty
    apply hne
    apply List.length_eq_zero.mp
    rw [← hlen, hempty]
    rfl
  exact (hinv hne2).mpr hall

theorem rowFalse_fire_false {t : Qt6Table} {r : Nat} {cb : CheckBoxW}
    (hc : cellAt t.rows r = some cb) (sel : List Nat) :
    rowFalse (Qt6.setCheckedFire sel false r t).rows r := by
  unfold Qt6.setCheckedFire
  split
  · rename_i cb2 hcb2
    cases hch : cb2.checked with
    | false =>
        rw [if_neg (by decide)]
        exact ⟨cb2, hcb2, hch⟩
    | true =>
        rw [if_pos (by decide)]
        have hset :
            rowFalse (t.rows.set r (some { checked := false, connected := cb2.connected })) r :=
          ⟨_, cellAt_set_self _ (cellAt_lt_length hcb2), rfl⟩
        split
        · rw [handler_rows_eq]
          split
          · exact rowFalse_propagate_false hset sel
          · exact hset
        · exact hset
  · rename_i hnone
    rw [hc] at hnone
    exact Option.noConfusion hnone

theorem setCheckState_false_headerOff (t : Qt6Table) (sel : List Nat) (r : Nat)
    (cb : CheckBoxW) (hc : cellAt t.rows r = some cb) :
    (Qt6.setCheckState sel r false t).headerOn = false := by
  unfold Qt6.setCheckState
  rw [hc]
  show Qt6.checkHeaderScan (Qt6.setCheckedFire sel false r t).rows = false
  rw [checkHeaderScan_eq_allChecked]
  exact allChecked_eq_false (rowFalse_fire_false hc sel)

/-! The sender-matching condition of the change handlers. -/

theorem any_parentMatches_of_mem {α : Type} {rows : List (Option α)}
    {sel : List Nat} {r : Nat} {a : α} (hr : cellAt rows r = some a)
    (hmem : r ∈ sel) :
    sel.any (fun sr => parentMatches rows (some r) sr) = true := by
  rw [List.any_eq_true]
  refine ⟨r, hmem, ?_⟩
  unfold parentMatches
  rw [hr]
  show (r == r) = true
  exact beq_self_eq_true r

theorem any_parentMatches_not_mem {α : Type} {rows : List (Option α)}
    {sel : List Nat} {r : Nat} (hmem : r ∉ sel) :
    sel.any (fun sr => parentMatches rows (some r) sr) = false := by
  rw [List.any_eq_false]
  intro sr hsr
  unfold parentMatches
  cases hca : cellAt rows sr with
  | none => exact fun h => Bool.noConfusion h
  | some a2 =>
      intro h
      exact hmem (by rw [eq_of_beq h]; exact hsr)

/-! Effect of the qt6 propagation loop, row by row. -/

theorem cellAt_propagate_not_mem {rows : List (Option CheckBoxW)}
    {sel : List Nat} {j : Nat} (hj : j ∉ sel) (b : Bool) :
    cellAt (Qt6.propagate rows sel b) j = cellAt rows j := by
  induction sel generalizing rows with
  | nil => rfl
  | cons sr rest ih =>
      rw [propagate_cons]
      have hsr : sr ≠ j := fun h => hj (h ▸ List.mem_cons_self sr rest)
      rw [ih (fun h => hj (List.mem_cons_of_mem sr h)), cellAt_setCheckedRow_ne hsr]

theorem cellAt_propagate_mem {rows : List (Option CheckBoxW)} {sel : List Nat}
    {j : Nat} {cb : CheckBoxW} (hj : j ∈ sel) (hc : cellAt rows j = some cb)
    (b : Bool) :
    cellAt (Qt6.propagate rows sel b) j =
      some { checked := b, connected := cb.connected } := by
  induction sel generalizing rows cb with
  | nil => exact absurd hj (List.not_mem_nil j)
  | cons sr rest ih =>
      rw [propagate_cons]
      by_cases hsj : sr = j
      · subst hsj
        have hc2 : cellAt (Qt6.setCheckedRow rows sr b) sr =
            some { checked := b, connected := cb.connected } :=
          cellAt_setCheckedRow_self hc b
        by_cases hmem : sr ∈ rest
        · have h3 := ih hmem hc2
          exact h3
        · rw [cellAt_propagate_not_mem hmem b]
          exact hc2
      · rcases List.mem_cons.mp hj with h | h
        · exact absurd h.symm hsj
        · have hc2 : cellAt (Qt6.setCheckedRow rows sr b) j = some cb := by
            rw [cellAt_setCheckedRow_ne hsj]
            exact hc
          exact ih h hc2

theorem handler_rows_of_mem {t : Qt6Table} {sel : List Nat} {r : Nat}
    {cb : CheckBoxW} (hr : cellAt t.rows r = some cb) (hmem : r ∈ sel)
    (st : Nat) :
    (Qt6.onCheckboxStateChanged false sel (some r) st t).rows =
      Qt6.propagate t.rows sel (st == 2) := by
  rw [handler_rows_eq, if_pos (any_parentMatches_of_mem hr hmem)]

theorem handler_rows_of_not_mem {t : Qt6Table} {sel : List Nat} {r : Nat}
    (hmem : r ∉ sel) (st : Nat) :
    (Qt6.onCheckboxStateChanged false sel (some r) st t).rows = t.rows := by
  rw [handler_rows_eq,
    if_neg (by rw [any_parentMatches_not_mem hmem]; exact Bool.false_ne_true)]

/-! Lemmas about the side6 variant. -/

theorem side6_scan_eq (rows : List (Option Bool)) (h : Bool) :
    Side6.checkHeaderScan rows h = (if side6HasUnchecked rows then h else true) := by
  induction rows with
  | nil => rfl
  | cons c rest ih =>
      cases c with
      | none =>
          show Side6.checkHeaderScan rest h = _
          rw [ih]
          simp [side6HasUnchecked]
      | some b =>
          cases b with
          | true =>
              show Side6.checkHeaderScan rest h = _
              rw [ih]
              simp [side6HasUnchecked]
          | false =>
              show h = _
              simp [side6HasUnchecked]

theorem side6_handlerFuel_succ (f : Nat) (sel : List Nat) (sp : Option Nat)
    (st : Nat) (t : Side6Table) :
    Side6.handlerFuel (f + 1) sel sp st t =
      ((if st == 0 then { (Side6.propPhase f sel sp st t).1 with headerOn := false }
        else Side6.checkHeader (Side6.propPhase f sel sp st t).1),
       (Side6.propPhase f sel sp st t).2 + 1) := rfl

theorem side6_handlerFuel_succ_rows (f : Nat) (sel : List Nat) (sp : Option Nat)
    (st : Nat) (t : Side6Table) :
    ((Side6.handlerFuel (f + 1) sel sp st t).1).rows =
      ((Side6.propPhase f sel sp st t).1).rows := by
  rw [side6_handlerFuel_succ]
  split
  · rfl
  · rfl

theorem side6_handlerFuel_succ_count (f : Nat) (sel : List Nat) (sp : Option Nat)
    (st : Nat) (t : Side6Table) :
    (Side6.handlerFuel (f + 1) sel sp st t).2 =
      (Side6.propPhase f sel sp st t).2 + 1 := by
  rw [side6_handlerFuel_succ]

theorem side6_propStep_cellAt_ne
    (nested : Nat → Side6Table → Side6Table × Nat) (st : Nat)
    (acc : Side6Table × Nat) (sr : Nat) {j : Nat} (hsr : sr ≠ j)
    (hn : ∀ t2, cellAt ((nested sr t2).1).rows j = cellAt t2.rows j) :
    cellAt ((Side6.propStep nested st acc sr).1).rows j = cellAt acc.1.rows j := by
  unfold Side6.propStep
  split
  · split
    · show cellAt ((nested sr _).1).rows j = _
      rw [hn]
      exact cellAt_set_ne _ hsr
    · rfl
  · rfl

theorem side6_propStep_writes
    (nested : Nat → Side6Table → Side6Table × Nat) (st : Nat)
    (acc : Side6Table × Nat) (sr : Nat) (j : Nat)
    (hn : ∀ s t2, cellAt ((nested s t2).1).rows j = cellAt t2.rows j ∨
                  cellAt ((nested s t2).1).rows j = some (st == 2)) :
    cellAt ((Side6.propStep nested st acc sr).1).rows j = cellAt acc.1.rows j ∨
    cellAt ((Side6.propStep nested st acc sr).1).rows j = some (st == 2) := by
  unfold Side6.propStep
  split
  · rename_i old hold
    split
    · rcases hn sr { acc.1 with rows := acc.1.rows.set sr (some (st == 2)) } with h | h
      · by_cases hsj : sr = j
        · subst hsj
          right
          show cellAt ((nested sr _).1).rows sr = some (st == 2)
          rw [h]
          exact cellAt_set_self _ (cellAt_lt_length hold)
        · left
          show cellAt ((nested sr _).1).rows j = cellAt acc.1.rows j
          rw [h]
          exact cellAt_set_ne _ hsj
      · right
        show cellAt ((nested sr _).1).rows j = some (st == 2)
        exact h
    · left; rfl
  · left; rfl

theorem side6_foldProp_frame (sel2 : List Nat)
    (nested : Nat → Side6Table → Side6Table × Nat) (st : Nat) (j : Nat)
    (hn : ∀ s t2, cellAt ((nested s t2).1).rows j = cellAt t2.rows j) :
    ∀ acc : Side6Table × Nat, j ∉ sel2 →
      cellAt ((sel2.foldl (Side6.propStep nested st) acc).1).rows j =
        cellAt acc.1.rows j := by
  induction sel2 with
  | nil => exact fun _ _ => rfl
  | cons sr rest ih =>
      intro acc hj
      have hsr : sr ≠ j := fun h => hj (h ▸ List.mem_cons_self sr rest)
      have hrest : j ∉ rest := fun h => hj (List.mem_cons_of_mem sr h)
      rw [List.foldl_cons, ih _ hrest]
      exact side6_propStep_cellAt_ne nested st acc sr hsr (fun t2 => hn sr t2)

theorem side6_foldProp_writes (sel2 : List Nat)
    (nested : Nat → Side6Table → Side6Table × Nat) (st : Nat) (j : Nat)
    (hn : ∀ s t2, cellAt ((nested s t2).1).rows j = cellAt t2.rows j ∨
                  cellAt ((nested s t2).1).rows j = some (st == 2)) :
    ∀ acc : Side6Table × Nat,
      cellAt ((sel2.foldl (Side6.propStep nested st) acc).1).rows j =
        cellAt acc.1.rows j ∨
      cellAt ((sel2.foldl (Side6.propStep nested st) acc).1).rows j =
        some (st == 2) := by
  induction sel2 with
  | nil => exact fun _ => Or.inl rfl
  | cons sr rest ih =>
      intro acc
      rw [List.foldl_cons]
      rcases ih (Side6.propStep nested st acc sr) with h | h
      · rcases side6_propStep_writes nested st acc sr j hn with h2 | h2
        · left; rw [h, h2]
        · right; rw [h, h2]
      · right; rw [h]

theorem side6_handler_frame (f : Nat) :
    ∀ (sel : List Nat) (sp : Option Nat) (st : Nat) (t : Side6Table) {j : Nat},
      j ∉ sel →
      cellAt ((Side6.handlerFuel f sel sp st t).1).rows j = cellAt t.rows j := by
  induction f with
  | zero => intro _ _ _ _ _ _; rfl
  | succ f ih =>
      intro sel sp st t j hj
      rw [side6_handlerFuel_succ_rows]
      unfold Side6.propPhase
      split
      · exact side6_foldProp_frame sel _ st j
          (fun s t2 => ih sel (some s) (if st == 2 then 2 else 0) t2 hj) (t, 0) hj
      · rfl

theorem side6_handler_writes (f : Nat) :
    ∀ (sel : List Nat) (sp : Option Nat) (st : Nat) (t : Side6Table) (j : Nat),
      cellAt ((Side6.handlerFuel f sel sp st t).1).rows j = cellAt t.rows j ∨
      cellAt ((Side6.handlerFuel f sel sp st t).1).rows j = some (st == 2) := by
  induction f with
  | zero => exact fun _ _ _ _ _ => Or.inl rfl
  | succ f ih =>
      intro sel sp st t j
      rw [side6_handlerFuel_succ_rows]
      unfold Side6.propPhase
      split
      · have hb : ((if st == 2 then 2 else 0 : Nat) == 2) = (st == 2) := by
          cases hst2 : st == 2
          · rfl
          · rfl
        have hn : ∀ s t2,
            cellAt ((Side6.handlerFuel f sel (some s) (if st == 2 then 2 else 0) t2).1).rows j
                = cellAt t2.rows j ∨
            cellAt ((Side6.handlerFuel f sel (some s) (if st == 2 then 2 else 0) t2).1).rows j
                = some (st == 2) := by
          intro s t2
          rcases ih sel (some s) (if st == 2 then 2 else 0) t2 j with h | h
          · exact Or.inl h
          · right
            rw [h, hb]
        exact side6_foldProp_writes sel _ st j hn (t, 0)
      · exact Or.inl rfl

theorem side6_foldProp_sel (sel2 : List Nat)
    (nested : Nat → Side6Table → Side6Table × Nat) (st : Nat) (j : Nat)
    (hn : ∀ s t2, cellAt ((nested s t2).1).rows j = cellAt t2.rows j ∨
                  cellAt ((nested s t2).1).rows j = some (st == 2)) :
    ∀ acc : Side6Table × Nat, j ∈ sel2 → ∀ w : Bool,
      cellAt acc.1.rows j = some w →
      cellAt ((sel2.foldl (Side6.propStep nested st) acc).1).rows j =
        some (st == 2) := by
  induction sel2 with
  | nil => intro _ hj; exact absurd hj (List.not_mem_nil j)
  | cons sr rest ih =>
      intro acc hj w hw
      rw [List.foldl_cons]
      rcases List.mem_cons.mp hj with h | h
      · have hstep :
            cellAt ((Side6.propStep nested st acc sr).1).rows j = some (st == 2) := by
          subst h
          unfold Side6.propStep
          split
          · rename_i old hold
            split
            · rcases hn j { acc.1 with rows := acc.1.rows.set j (some (st == 2)) } with h3 | h3
              · show cellAt ((nested j _).1).rows j = some (st == 2)
                rw [h3]
                exact cellAt_set_self _ (cellAt_lt_length hold)
              · exact h3
            · rename_i hnc
              show cellAt acc.1.rows j = some (st == 2)
              rw [hold]
              have hob : old = (st == 2) := by
                have h4 : (old != (st == 2)) = false :=
                  Bool.eq_false_iff.mpr hnc
                exact eq_of_beq (by
                  cases h5 : old == (st == 2)
                  · rw [bne, h5] at h4
                    exact absurd h4 (by decide)
                  · rfl)
              rw [hob]
          · rename_i hnone
            rw [hw] at hnone
            exact Option.noConfusion hnone
        rcases side6_foldProp_writes rest nested st j hn
            (Side6.propStep nested st acc sr) with h2 | h2
        · rw [h2, hstep]
        · exact h2
      · rcases side6_propStep_writes nested st acc sr j hn with h2 | h2
        · exact ih _ h w (by rw [h2]; exact hw)
        · exact ih _ h (st == 2) h2

theorem side6_handler_sel (f : Nat) (sel : List Nat) (r : Nat) (st : Nat)
    (t : Side6Table) {j : Nat} {v w : Bool}
    (hr : cellAt t.rows r = some v) (hrmem : r ∈ sel)
    (hj : j ∈ sel) (hw : cellAt t.rows j = some w) :
    cellAt ((Side6.handlerFuel (f + 1) sel (some r) st t).1).rows j =
      some (st == 2) := by
  rw [side6_handlerFuel_succ_rows]
  unfold Side6.propPhase
  rw [if_pos (any_parentMatches_of_mem hr hrmem)]
  have hb : ((if st == 2 then 2 else 0 : Nat) == 2) = (st == 2) := by
    cases hst2 : st == 2
    · rfl
    · rfl
  have hn : ∀ s t2,
      cellAt ((Side6.handlerFuel f sel (some s) (if st == 2 then 2 else 0) t2).1).rows j
          = cellAt t2.rows j ∨
      cellAt ((Side6.handlerFuel f sel (some s) (if st == 2 then 2 else 0) t2).1).rows j
          = some (st == 2) := by
    intro s t2
    rcases side6_handler_writes f sel (some s) (if st == 2 then 2 else 0) t2 j with h | h
    · exact Or.inl h
    · right
      rw [h, hb]
  exact side6_foldProp_sel sel _ st j hn (t, 0) hj w hw

theorem side6_handler_not_sel (f : Nat) (sel : List Nat) (r : Nat) (st : Nat)
    (t : Side6Table) (hmem : r ∉ sel) :
    ((Side6.handlerFuel (f + 1) sel (some r) st t).1).rows = t.rows := by
  rw [side6_handlerFuel_succ_rows]
  unfold Side6.propPhase
  rw [if_neg (by rw [any_parentMatches_not_mem hmem]; exact Bool.false_ne_true)]

theorem underCols_handler (g : Bool) (sel : List Nat) (sp : Option Nat)
    (st : Nat) (t : Qt6Table) :
    (Qt6.onCheckboxStateChanged g sel sp st t).underCols = t.underCols := by
  cases g
  · rw [handler_false_eq]
    split
    · rfl
    · rfl
  · rfl

theorem underCols_addRow (sel : List Nat) (state : Bool) (pos : Option Nat)
    (t : Qt6Table) : (Qt6.addRow sel state pos t).underCols = t.underCols := by
  unfold Qt6.addRow
  cases state
  · rfl
  · exact underCols_handler false sel none 2 _

theorem eraseIdx_set {α : Type} (l : List α) (r : Nat) (v : α) :
    (l.set r v).eraseIdx r = l.eraseIdx r := by
  induction l generalizing r with
  | nil => rfl
  | cons x xs ih =>
      cases r with
      | zero => rfl
      | succ r2 =>
          show x :: (xs.set r2 v).eraseIdx r2 = x :: xs.eraseIdx r2
          rw [ih]

/-! Claim theorems. -/

/-- C1, counterexample: in the PySide6 variant the claimed invariant fails
after `addRow`.  Starting from the constructor state, `addRow(items, True)`
leaves one checked row with the header on (a reachable, fully consistent
state); the following `addRow(items)` (unchecked) appends an unchecked row
WITHOUT recomputing the header, so the operation completes on a non-empty
table whose header is on while not every row checkbox is checked. -/
theorem c1_counterexample :
    Side6.addRow [] false (Side6.addRow [] true Side6.new) =
      { rows := [some true, some false], headerOn := true,
        behavior := SelBehavior.selectRows } ∧
    side6HasUnchecked [some true, some false] = true := by
  constructor
  · decide
  · decide

/-- C1, amended: in the Qt6 variant the claim holds as stated.  For every
table reached from the constructor state by any sequence of the public
operations (`addRow`, `setCheckState`, `checkAll`, and row-checkbox toggles
firing the change handler), under every selection: if the table is non-empty
the header's `isOn` is true iff every row's checkbox is checked; appending a
`checkAll(True)` to the sequence turns the header on, and appending a
`setCheckState(row, False)` for any row holding a checkbox turns it off
within the same operation.  (In the PySide6 variant `addRow` does not
recompute the header, so the invariant fails there — see the
counterexample.) -/
theorem c1_amended_qt6_invariant (c : Nat) (ops : List Qt6Op) :
    headerInv (Qt6.run ops (Qt6.new c)) ∧
    (∀ sel, (Qt6.run ops (Qt6.new c)).rows ≠ [] →
      (Qt6.run (ops ++ [Qt6Op.opCheckAll sel true]) (Qt6.new c)).headerOn = true) ∧
    (∀ sel r cb, cellAt (Qt6.run ops (Qt6.new c)).rows r = some cb →
      (Qt6.run (ops ++ [Qt6Op.opSetCheckState sel r false]) (Qt6.new c)).headerOn
        = false) := by
  have hinv := tableInv_run ops (Qt6.new c) (tableInv_new c)
  refine ⟨hinv.2, ?_, ?_⟩
  · intro sel hne
    rw [Qt6.run, List.foldl_append]
    exact checkAll_true_headerOn hinv.1 hinv.2 hne sel
  · intro sel r cb hc
    rw [Qt6.run, List.foldl_append]
    exact setCheckState_false_headerOff _ sel r cb hc

/-- C1, witness: a concrete run (one checked row added) on which the three
amended conclusions evaluate. -/
theorem c1_amended_qt6_invariant_witness :
    headerInv (Qt6.run [Qt6Op.opAddRow [] true none] (Qt6.new 0)) ∧
    (Qt6.run ([Qt6Op.opAddRow [] true none] ++ [Qt6Op.opCheckAll [] true])
        (Qt6.new 0)).headerOn = true ∧
    (Qt6.run ([Qt6Op.opAddRow [] true none] ++ [Qt6Op.opSetCheckState [] 0 false])
        (Qt6.new 0)).headerOn = false :=
  ⟨(c1_amended_qt6_invariant 0 [Qt6Op.opAddRow [] true none]).1,
   (c1_amended_qt6_invariant 0 [Qt6Op.opAddRow [] true none]).2.1 [] (by decide),
   (c1_amended_qt6_invariant 0 [Qt6Op.opAddRow [] true none]).2.2 [] 0
     { checked := true, connected := true } (by decide)⟩

/-- C2, counterexample: the side6 `checkHeader` does NOT set the header off at
the first unchecked row: on a table whose only row is unchecked and whose
header is on, it returns with the header still on. -/
theorem c2_counterexample :
    Side6.checkHeader
        { rows := [some false], headerOn := true,
          behavior := SelBehavior.selectRows } =
      { rows := [some false], headerOn := true,
        behavior := SelBehavior.selectRows } ∧
    side6HasUnchecked [some false] = true := by
  constructor
  · decide
  · decide

/-- C2, amended: the qt6 `_checkHeader` behaves as claimed — it scans from row
0 upward, sets the header off at the first unchecked checkbox and stops, and
sets it on when no unchecked checkbox is found, so its result is exactly the
all-checked predicate.  The side6 `checkHeader` stops at the first unchecked
checkbox WITHOUT modifying the header (the header keeps its previous value)
and sets the header on only when no row checkbox is unchecked. -/
theorem c2_amended_checkHeader :
    (∀ t : Qt6Table,
        Qt6.checkHeader t = { t with headerOn := Qt6.allChecked t.rows }) ∧
    (∀ t : Side6Table, (Side6.checkHeader t).rows = t.rows ∧
        (Side6.checkHeader t).headerOn =
          (if side6HasUnchecked t.rows then t.headerOn else true)) := by
  constructor
  · intro t
    unfold Qt6.checkHeader
    rw [checkHeaderScan_eq_allChecked]
  · intro t
    exact ⟨rfl, side6_scan_eq t.rows t.headerOn⟩

/-- C3, counterexample: a left press landing on section 1 followed by a left
release landing on section 0 DOES toggle `isOn` and DOES emit the select-all
notification (in the qt6 header; the side6 header is identical), contradicting
the claim that the toggle happens only when both press and release land on
section 0. -/
theorem c3_counterexample :
    Qt6.headerMouseRelease true 0
        (Qt6.headerMousePress true 1 { isOn := false, mouseDown := false }) =
      ({ isOn := true, mouseDown := false }, some true) := by
  decide

/-- C3, amended: in both variants the header toggles `isOn` and emits the
notification exactly when a left-button release lands on logical section 0,
regardless of where the preceding press landed; a press never changes `isOn`
and never emits.  In particular a press on section 0 followed by a release on
a different section does not toggle and emits nothing (that half of the claim
holds), but a press elsewhere followed by a release on section 0 does
toggle. -/
theorem c3_amended_release_only :
    (∀ (left : Bool) (sec : Int) (h : HeaderSM),
        (Qt6.headerMousePress left sec h).isOn = h.isOn) ∧
    (∀ (left : Bool) (sec : Int) (h : HeaderSM),
        Qt6.headerMouseRelease left sec h =
          if left && (sec == 0) then
            ({ isOn := !h.isOn, mouseDown := false }, some (!h.isOn))
          else if left then ({ h with mouseDown := false }, none)
          else (h, none)) ∧
    (∀ (left : Bool) (sec : Int) (h : HeaderSM),
        (Side6.headerMousePress left sec h).isOn = h.isOn) ∧
    (∀ (left : Bool) (sec : Int) (h : HeaderSM),
        Side6.headerMouseRelease left sec h =
          if left && (sec == 0) then
            ({ isOn := !h.isOn, mouseDown := false }, some (!h.isOn))
          else if left then ({ h with mouseDown := false }, none)
          else (h, none)) := by
  refine ⟨?_, ?_, ?_, ?_⟩ <;> intro left sec h
  · cases left
    · rfl
    · show (if sec == 0 then _ else _ : HeaderSM).isOn = h.isOn
      split
      · rfl
      · rfl
  · cases left
    · rfl
    · unfold Qt6.headerMouseRelease
      cases hsec : sec == 0
      · rfl
      · rfl
  · cases left
    · rfl
    · show (if sec == 0 then _ else _ : HeaderSM).isOn = h.isOn
      split
      · rfl
      · rfl
  · cases left
    · rfl
    · unfold Side6.headerMouseRelease
      cases hsec : sec == 0
      · rfl
      · rfl

/-- C4: the bulk multi-select propagation of the row-checkbox change handler,
in both variants.  When row `r`'s checkbox changed to a new state (signal
payload `st`) and row `r` is among the selected rows, every selected row with
a checkbox ends up holding the new state (connections untouched) and no
unselected row's entry changes; when row `r` is not among the selected rows,
the handler leaves every row entry exactly as it was (only the already-applied
change to row `r` itself remains). -/
theorem c4_bulk_propagation :
    (∀ (sel : List Nat) (r : Nat) (cb : CheckBoxW) (st : Nat) (t : Qt6Table),
      cellAt t.rows r = some cb → st = (if cb.checked then 2 else 0) →
      ((r ∈ sel →
          (∀ j cj, j ∈ sel → cellAt t.rows j = some cj →
            cellAt (Qt6.onCheckboxStateChanged false sel (some r) st t).rows j =
              some { checked := cb.checked, connected := cj.connected }) ∧
          (∀ j, j ∉ sel →
            cellAt (Qt6.onCheckboxStateChanged false sel (some r) st t).rows j =
              cellAt t.rows j)) ∧
        (r ∉ sel →
          (Qt6.onCheckboxStateChanged false sel (some r) st t).rows = t.rows))) ∧
    (∀ (f : Nat) (sel : List Nat) (r : Nat) (v : Bool) (st : Nat) (t : Side6Table),
      cellAt t.rows r = some v → st = (if v then 2 else 0) →
      ((r ∈ sel →
          (∀ j w, j ∈ sel → cellAt t.rows j = some w →
            cellAt ((Side6.handlerFuel (f + 1) sel (some r) st t).1).rows j =
              some v) ∧
          (∀ j, j ∉ sel →
            cellAt ((Side6.handlerFuel (f + 1) sel (some r) st t).1).rows j =
              cellAt t.rows j)) ∧
        (r ∉ sel →
          ((Side6.handlerFuel (f + 1) sel (some r) st t).1).rows = t.rows))) := by
  constructor
  · intro sel r cb st t hr hst
    subst hst
    have hb : ((if cb.checked then 2 else 0 : Nat) == 2) = cb.checked := by
      cases cb.checked
      · rfl
      · rfl
    constructor
    · intro hmem
      constructor
      · intro j cj hj hcj
        rw [handler_rows_of_mem hr hmem, cellAt_propagate_mem hj hcj, hb]
      · intro j hj
        rw [handler_rows_of_mem hr hmem, cellAt_propagate_not_mem hj]
    · intro hmem
      exact handler_rows_of_not_mem hmem _
  · intro f sel r v st t hr hst
    subst hst
    have hb : ((if v then 2 else 0 : Nat) == 2) = v := by
      cases v
      · rfl
      · rfl
    constructor
    · intro hmem
      constructor
      · intro j w hj hw
        have h5 := side6_handler_sel f sel r (if v then 2 else 0) t hr hmem hj hw
        rw [hb] at h5
        exact h5
      · intro j hj
        exact side6_handler_frame (f + 1) sel (some r) (if v then 2 else 0) t hj
    · intro hmem
      exact side6_handler_not_sel f sel r (if v then 2 else 0) t hmem

/-- C4, witness: both halves applied at a concrete three-row table with rows
0 and 2 selected and row 0's checkbox just turned checked. -/
theorem c4_bulk_propagation_witness :
    ((0 ∈ [0, 2] →
        (∀ (j : Nat) (cj : CheckBoxW), j ∈ [0, 2] →
          cellAt ([some { checked := true, connected := true },
            some { checked := false, connected := true },
            some { checked := false, connected := true }] : List (Option CheckBoxW)) j = some cj →
          cellAt (Qt6.onCheckboxStateChanged false [0, 2] (some 0) 2
              { rows := [some { checked := true, connected := true },
                  some { checked := false, connected := true },
                  some { checked := false, connected := true }],
                headerOn := false, underCols := 1 }).rows j =
            some { checked := true, connected := cj.connected }) ∧
        (∀ j : Nat, j ∉ [0, 2] →
          cellAt (Qt6.onCheckboxStateChanged false [0, 2] (some 0) 2
              { rows := [some { checked := true, connected := true },
                  some { checked := false, connected := true },
                  some { checked := false, connected := true }],
                headerOn := false, underCols := 1 }).rows j =
            cellAt ([some { checked := true, connected := true },
              some { checked := false, connected := true },
              some { checked := false, connected := true }] : List (Option CheckBoxW)) j)) ∧
      (0 ∉ [0, 2] →
        (Qt6.onCheckboxStateChanged false [0, 2] (some 0) 2
            { rows := [some { checked := true, connected := true },
                some { checked := false, connected := true },
                some { checked := false, connected := true }],
              headerOn := false, underCols := 1 }).rows =
          [some { checked := true, connected := true },
            some { checked := false, connected := true },
            some { checked := false, connected := true }])) ∧
    ((0 ∈ [0, 2] →
        (∀ (j : Nat) (w : Bool), j ∈ [0, 2] →
          cellAt ([some true, some false, some false] : List (Option Bool)) j = some w →
          cellAt ((Side6.handlerFuel (2 + 1) [0, 2] (some 0) 2
              { rows := [some true, some false, some false], headerOn := false,
                behavior := SelBehavior.selectRows }).1).rows j = some true) ∧
        (∀ j : Nat, j ∉ [0, 2] →
          cellAt ((Side6.handlerFuel (2 + 1) [0, 2] (some 0) 2
              { rows := [some true, some false, some false], headerOn := false,
                behavior := SelBehavior.selectRows }).1).rows j =
            cellAt ([some true, some false, some false] : List (Option Bool)) j)) ∧
      (0 ∉ [0, 2] →
        ((Side6.handlerFuel (2 + 1) [0, 2] (some 0) 2
            { rows := [some true, some false, some false], headerOn := false,
              behavior := SelBehavior.selectRows }).1).rows =
          [some true, some false, some false])) :=
  ⟨c4_bulk_propagation.1 [0, 2] 0 { checked := true, connected := true } 2
      { rows := [some { checked := true, connected := true },
          some { checked := false, connected := true },
          some { checked := false, connected := true }],
        headerOn := false, underCols := 1 } (by decide) (by decide),
   c4_bulk_propagation.2 2 [0, 2] 0 true 2
      { rows := [some true, some false, some false], headerOn := false,
        behavior := SelBehavior.selectRows } (by decide) (by decide)⟩

/-- C5, counterexample: the PySide6 handler has no drop guard.  Invoking the
handler for row 0 of `[some true, some false]` with rows 0 and 1 selected
executes TWO handler bodies: propagating the checked state to row 1 fires a
nested invocation that runs in full (it is this nested body's aggregate
recomputation that turns the header on), contradicting the claim that a
nested invocation returns immediately without bulk propagation or aggregate
recomputation. -/
theorem c5_counterexample :
    Side6.onCheckboxStateChangedCount [0, 1] (some 0) 2
        { rows := [some true, some false], headerOn := false,
          behavior := SelBehavior.selectRows } =
      ({ rows := [some true, some true], headerOn := true,
         behavior := SelBehavior.selectRows }, 2) := by
  decide

/-- C5, amended: in the Qt6 variant the handler is re-entrancy-guarded exactly
as claimed — any invocation entered while `_checkboxStateChangedLock` is held
returns immediately with the table unchanged (dropped, not queued; the guard
is a lock released when the top-level `with` block exits).  The PySide6
variant has no such guard: every handler invocation, nested or not, executes
its full body (the executed-body count of any invocation is at least 1 —
nothing is ever dropped). -/
theorem c5_amended_guard :
    (∀ (sel : List Nat) (sp : Option Nat) (st : Nat) (t : Qt6Table),
        Qt6.onCheckboxStateChanged true sel sp st t = t) ∧
    (∀ (f : Nat) (sel : List Nat) (sp : Option Nat) (st : Nat) (t : Side6Table),
        1 ≤ (Side6.handlerFuel (f + 1) sel sp st t).2) := by
  constructor
  · intro _ _ _ _
    rfl
  · intro f sel sp st t
    rw [side6_handlerFuel_succ_count]
    exact Nat.le_add_left 1 _

/-- C6: `columnCount()` always reports one less than the underlying grid's
column count, `setColumnCount(n)` requests `n + 1` underlying columns, and
after any sequence of `addRow` calls on a table constructed with `c`
caller-visible columns, `columnCount()` still returns `c`, whatever the row
count became. -/
theorem c6_column_offset :
    (∀ t : Qt6Table, Qt6.columnCount t = (t.underCols : Int) - 1) ∧
    (∀ (n : Nat) (t : Qt6Table), (Qt6.setColumnCount n t).underCols = n + 1) ∧
    (∀ (c : Nat) (calls : List AddRowCall),
        Qt6.columnCount (runAddRows calls (Qt6.new c)) = (c : Int)) := by
  refine ⟨fun _ => rfl, fun _ _ => rfl, ?_⟩
  intro c calls
  have huc : ∀ (calls2 : List AddRowCall) (t : Qt6Table),
      (runAddRows calls2 t).underCols = t.underCols := by
    intro calls2
    induction calls2 with
    | nil => exact fun _ => rfl
    | cons call rest ih =>
        intro t
        rw [show runAddRows (call :: rest) t =
              runAddRows rest (Qt6.addRow call.sel call.state call.pos t) from rfl,
          ih, underCols_addRow]
  show ((runAddRows calls (Qt6.new c)).underCols : Int) - 1 = (c : Int)
  rw [huc calls (Qt6.new c)]
  show ((c + 1 : Nat) : Int) - 1 = (c : Int)
  push_cast
  ring

/-- C7: for a row holding an attached checkbox, `removeRow` disconnects that
checkbox's change signal and then delegates to the underlying grid's row
removal; the removal runs no handler, so the header flag, the column count
and every other row's checkbox entry are exactly those of the original table
with the row erased. -/
theorem c7_removeRow_disconnects (t : Qt6Table) (r : Nat) (cb : CheckBoxW)
    (hc : cellAt t.rows r = some cb) :
    (Qt6.removeRow r t).rows = t.rows.eraseIdx r ∧
    (Qt6.removeRow r t).headerOn = t.headerOn ∧
    (Qt6.removeRow r t).underCols = t.underCols := by
  unfold Qt6.removeRow
  split
  · exact ⟨eraseIdx_set t.rows r _, rfl, rfl⟩
  · rename_i hnone
    rw [hc] at hnone
    exact Option.noConfusion hnone

/-- C7, witness: removing the middle row of a concrete three-row table. -/
theorem c7_removeRow_disconnects_witness :
    (Qt6.removeRow 1
        { rows := [some { checked := true, connected := true },
            some { checked := false, connected := true },
            some { checked := true, connected := true }],
          headerOn := false, underCols := 4 }).rows =
      ([some { checked := true, connected := true },
        some { checked := false, connected := true },
        some { checked := true, connected := true }] :
          List (Option CheckBoxW)).eraseIdx 1 ∧
    (Qt6.removeRow 1
        { rows := [some { checked := true, connected := true },
            some { checked := false, connected := true },
            some { checked := true, connected := true }],
          headerOn := false, underCols := 4 }).headerOn = false ∧
    (Qt6.removeRow 1
        { rows := [some { checked := true, connected := true },
            some { checked := false, connected := true },
            some { checked := true, connected := true }],
          headerOn := false, underCols := 4 }).underCols = 4 :=
  c7_removeRow_disconnects
    { rows := [some { checked := true, connected := true },
        some { checked := false, connected := true },
        some { checked := true, connected := true }],
      headerOn := false, underCols := 4 } 1 { checked := false, connected := true }
    (by decide)

/-- C8: each of the seven inherited operations left unadapted to the column
offset (`indexFromItem`, `itemFromIndex`, `isIndexHidden`, `scrollTo`,
`selectedIndexes`, `sizeHintForColumn`, `indexAt`) raises exactly one
`NotImplementedWarning` on every call and then delegates to the superclass
with its arguments unchanged, returning the superclass result unmodified. -/
theorem c8_unadapted_operations_warn :
    (∀ (Item Index : Type) (superFn : Item → Index) (item : Item),
        Qt6.indexFromItem superFn item =
          ([Warn.notImplemented "indexFromItem() is not overridden"], superFn item)) ∧
    (∀ (Index Item : Type) (superFn : Index → Item) (index : Index),
        Qt6.itemFromIndex superFn index =
          ([Warn.notImplemented "itemFromIndex() is not overridden"], superFn index)) ∧
    (∀ (Index : Type) (superFn : Index → Bool) (index : Index),
        Qt6.isIndexHidden superFn index =
          ([Warn.notImplemented "isIndexHidden() is not overridden"], superFn index)) ∧
    (∀ (Index Hint Eff : Type) (superFn : Index → Hint → Eff) (index : Index) (hint : Hint),
        Qt6.scrollTo superFn index hint =
          ([Warn.notImplemented "scrollTo() is not overridden"], superFn index hint)) ∧
    (∀ (Index : Type) (superFn : Unit → List Index),
        Qt6.selectedIndexes superFn =
          ([Warn.notImplemented "selectedIndexes() is not overridden"], superFn ())) ∧
    (∀ (superFn : Int → Int) (column : Int),
        Qt6.sizeHintForColumn superFn column =
          ([Warn.notImplemented "sizeHintForColumn() is not overridden"], superFn column)) ∧
    (∀ (Pt Index : Type) (superFn : Pt → Index) (point : Pt),
        Qt6.indexAt superFn point =
          ([Warn.notImplemented "indexAt() is not overridden"], superFn point)) :=
  ⟨fun _ _ _ _ => rfl, fun _ _ _ _ => rfl, fun _ _ _ => rfl,
   fun _ _ _ _ _ _ => rfl, fun _ _ => rfl, fun _ _ => rfl, fun _ _ _ _ => rfl⟩

/-- C9: in the Qt6 variant, a mouse press whose button is not the left button,
arriving while `_press_index` has never been assigned (its state since
construction, since only left presses assign it), reads the missing attribute
and faults with an `AttributeError` instead of performing any press handling;
a first left press at the same point succeeds. -/
theorem c9_nonleft_press_faults :
    (∀ col : Int, Qt6.mousePressEvent false col Qt6.initPressIndex =
        Except.error "AttributeError") ∧
    (∀ col : Int, Qt6.mousePressEvent true col Qt6.initPressIndex =
        Except.ok
          ((if col != 0 then PressOutcome.forwardedToSuper else PressOutcome.ignored),
           some col)) :=
  ⟨fun _ => rfl, fun _ => rfl⟩

/-- C10: the PySide6 `setSelectionBehavior` override is an unconditional no-op
for every argument of every type, so the whole table state is unchanged by
any call, and after any sequence of calls the row-wise selection behavior
fixed in the constructor still stands. -/
theorem c10_setSelectionBehavior_noop :
    (∀ (α : Type) (a : α) (t : Side6Table), Side6.setSelectionBehavior a t = t) ∧
    (∀ argsList : List SelBehavior,
        (argsList.foldl (fun t a => Side6.setSelectionBehavior a t)
            Side6.new).behavior = SelBehavior.selectRows) := by
  constructor
  · intro _ _ _
    rfl
  · intro argsList
    induction argsList with
    | nil => rfl
    | cons a rest ih => exact ih
